import Mathlib

/-!
# GronderfulShops — order placement / fulfillment / coupon core, shallowly embedded

A shallow embedding of the order and coupon routes of the GronderfulShops
backend (`functions/routes/orders.js`, `functions/routes/coupons.js`), with
theorems settling the specification's claims about that core.

Modelling conventions:

* Money is modelled as exact rationals (`ℚ`); the source computes on IEEE
  doubles, but every claim settled here is about the *shape* of the
  arithmetic (which formula, which rounding step exists or is absent), and
  those facts are insensitive to float rounding error.
* A Firestore transaction is modelled with snapshot semantics: every
  `transaction.get` inside one transaction reads the committed pre-state,
  writes are buffered in program order, and the buffered writes are applied
  only when the whole callback returns without throwing.  A throw anywhere
  inside the callback aborts the transaction: no buffered write is applied.
  The firebase-admin SDK additionally requires every read of a transaction
  to precede every write: a `transaction.get` issued after a write has been
  buffered throws `Firestore transactions require all reads to be executed
  before all writes`, modelled here by the `readAfterWrite` error.  The
  place-order loop interleaves a read and writes per line item, so a cart
  is processed successfully only when it has exactly one line item.
* Firestore collections are association lists keyed by document id
  (`List (String × α)`); a read takes the first binding, an update rewrites
  every binding of that key.  Real document ids are unique, which the
  stock-safety theorem takes as an explicit well-formedness hypothesis.
* `FieldValue.increment d` is a relative increment of the committed value;
  a plain `update` of a field is an absolute overwrite.  `update` on a
  missing document makes the enclosing operation fail.
* JavaScript truthiness of optional numeric / string fields is modelled
  explicitly: `0`, the empty string, `null`/absent are falsy.
* Wall-clock time (`Date`), the generated order number and the generated
  order-document id are nondeterministic inputs; they enter as parameters.
-/

namespace GronderfulShops

/-! ## Data model -/

/-- A sellable variant of a product (entry of `product.variants`). The
`price` field is optional because the source guards it with JavaScript
truthiness (`variant.price || product.price`). -/
structure Variant where
  id : String
  name : String
  price : Option ℚ
  stock : Int
deriving Repr, DecidableEq

/-- A product document, with the fields the order routes read. -/
structure Product where
  name : String
  price : ℚ
  isActive : Bool
  stockQuantity : Int
  variants : List Variant
deriving Repr, DecidableEq

/-- One entry of the `items` array of a place-order request body.
`clientPrice` stands for any client-supplied price-like field riding along
in the JSON object: the route's validators pass unknown fields through and
the handler destructures only `productId`, `quantity`, `variantId`. -/
structure ReqItem where
  productId : String
  quantity : Nat
  variantId : Option String
  clientPrice : Option ℚ
deriving Repr, DecidableEq

/-- The body of a place-order request (the fields the claims need).
`clientTotal` stands for a client-supplied price-like field at the top
level of the body, which the handler never reads. -/
structure PlaceRequest where
  items : List ReqItem
  customerEmail : String
  customerName : String
  clientTotal : Option ℚ
deriving Repr, DecidableEq

/-- An order line item as snapshotted onto the order document. -/
structure OrderItem where
  productId : String
  productName : String
  productPrice : ℚ
  quantity : Nat
  variantId : Option String
  variantName : Option String
  subtotal : ℚ
deriving Repr, DecidableEq

/-- Order status values. -/
inductive OrderStatus
  | pending
  | processing
  | shipped
  | delivered
  | cancelled
deriving Repr, DecidableEq

/-- An order document (the fields the claims need). -/
structure Order where
  orderNumber : String
  userId : Option String
  customerEmail : String
  customerName : String
  items : List OrderItem
  subtotal : ℚ
  tax : ℚ
  shipping : ℚ
  total : ℚ
  status : OrderStatus
  cancellationReason : Option String
  cancelledBy : Option String
deriving Repr, DecidableEq

/-- A coupon document (`coupons` collection). Optional fields are `null`
when absent; JavaScript-falsy values (`0`) disable the same checks that
`null` disables, which the `truthy*` helpers make explicit. Dates are
integer timestamps. -/
structure Coupon where
  code : String
  isActive : Bool
  discountType : String
  discountValue : ℚ
  minOrderAmount : Option ℚ
  maxDiscountAmount : Option ℚ
  maxUses : Option Nat
  maxUsesPerUser : Option Nat
  startDate : Option Int
  expiryDate : Option Int
  applicableCategories : List String
  applicableProducts : List String
  usedCount : Nat
deriving Repr, DecidableEq

/-- An append-only coupon usage record (`couponUsage` collection). -/
structure CouponUsage where
  couponId : String
  orderId : String
  userId : String
  userEmail : String
  discountAmount : ℚ
deriving Repr, DecidableEq

/-- The authenticated caller (`req.user`): the admin role is the literal
role string `"GronderfulBlogs"` the source compares against. -/
structure UserCtx where
  id : String
  email : String
  role : String
deriving Repr, DecidableEq

/-- The persistent state: the four Firestore collections the core touches,
each an association list keyed by document id (`couponUsage` records are
never read by id, so they are kept as a bare list). -/
structure DB where
  products : List (String × Product)
  orders : List (String × Order)
  coupons : List (String × Coupon)
  couponUsage : List CouponUsage
deriving Repr, DecidableEq

/-! ## Collection primitives -/

/-- Read a document by id: the first binding of the key. -/
def dbGet {α : Type} (s : List (String × α)) (k : String) : Option α :=
  (s.find? (fun kv => kv.1 == k)).map (fun kv => kv.2)

/-- Update a document by id (no-op on a missing id; callers that model
Firestore's update-requires-existence check the id first). -/
def dbUpdate {α : Type} (s : List (String × α)) (k : String) (f : α → α) :
    List (String × α) :=
  s.map (fun kv => if kv.1 == k then (kv.1, f kv.2) else kv)

/-- JavaScript `a || b` on an optional numeric field: `null` and `0` fall
through to the default. Models `variant.price || product.price`. -/
def jsOrPrice (v : Option ℚ) (d : ℚ) : ℚ :=
  match v with
  | some p => if p == 0 then d else p
  | none => d

/-- JavaScript truthiness of an optional string (absent and `""` falsy). -/
def truthyStr : Option String → Bool
  | none => false
  | some s => !(s == "")

/-- JavaScript truthiness of an optional natural (absent and `0` falsy). -/
def truthyNat : Option Nat → Bool
  | none => false
  | some n => !(n == 0)

/-- JavaScript truthiness of an optional rational (absent and `0` falsy). -/
def truthyRat : Option ℚ → Bool
  | none => false
  | some q => !(q == 0)

/-- JavaScript `String.prototype.trim()` (the express-validator `trim()`
sanitizer): strip whitespace from both ends, modelled structurally over
the character list. -/
def jsTrim (s : String) : String :=
  String.mk (((s.data.dropWhile Char.isWhitespace).reverse.dropWhile
    Char.isWhitespace).reverse)

/-- JavaScript `String.prototype.toUpperCase()`, modelled structurally
over the character list. -/
def jsToUpper (s : String) : String :=
  String.mk (s.data.map Char.toUpper)

/-! ## Buffered transaction writes

`PlaceOrder`'s transaction issues two kinds of product writes: a relative
`FieldValue.increment` of `stockQuantity` (orders.js line 104, and the
symmetric restock in the cancel route, line 406) and an absolute overwrite
of the whole `variants` array (line 113). Writes are buffered in program
order and applied at commit. -/

/-- One buffered product write of a transaction. -/
inductive StockWrite
  | incStock (pid : String) (delta : Int)
  | setVariants (pid : String) (vs : List Variant)
deriving Repr, DecidableEq

/-- Apply one buffered write to the products collection. -/
def applyWrite (s : List (String × Product)) : StockWrite → List (String × Product)
  | .incStock pid d =>
      dbUpdate s pid (fun p => { p with stockQuantity := p.stockQuantity + d })
  | .setVariants pid vs =>
      dbUpdate s pid (fun p => { p with variants := vs })

/-- Apply a buffer of writes in program order (transaction commit). -/
def applyWrites (s : List (String × Product)) (ws : List StockWrite) :
    List (String × Product) :=
  ws.foldl applyWrite s

/-! ## PlaceOrder (orders.js, `router.post('/')`, lines 17–170) -/

/-- Errors thrown inside the place-order transaction, plus the
express-validator rejection. `readAfterWrite` is the firebase-admin SDK's
`Firestore transactions require all reads to be executed before all
writes`, thrown by any `transaction.get` issued after a write has been
buffered. Every thrown error is caught by the route's catch-all and
surfaced as HTTP 500 `ServerError`; the validator rejection is surfaced as
HTTP 400 `ValidationError`. -/
inductive PlaceError
  | validationError
  | productNotFound (pid : String)
  | productInactive (name : String)
  | insufficientStock (name : String)
  | insufficientVariantStock (variantName : String)
  | readAfterWrite
deriving Repr, DecidableEq

/-- The result of processing one cart line inside the transaction: the
snapshotted order item and the buffered stock writes it issued. -/
structure ItemResult where
  orderItem : OrderItem
  writes : List StockWrite
deriving Repr, DecidableEq

/-- `variants[findIndex].stock -= quantity` on the freshly read copy:
the first variant with the given id is decremented, the rest untouched. -/
def decrementFirstVariant (vid : String) (qty : Nat) : List Variant → List Variant
  | [] => []
  | v :: rest =>
      if v.id == vid then { v with stock := v.stock - (qty : Int) } :: rest
      else v :: decrementFirstVariant vid qty rest

/-- One iteration of the cart loop (orders.js lines 56–118), reading from
the transaction's committed snapshot `s`:
read the product (throw `ProductNotFound` if missing), check `isActive`,
check `stockQuantity` against the requested quantity, resolve the variant
(price override with JS `||`, variant stock check), snapshot the order
item, and buffer the stock decrement (always product-level; additionally
the variants-array overwrite when the variant id matched). -/
def processItem (s : List (String × Product)) (item : ReqItem) :
    Except PlaceError ItemResult :=
  match dbGet s item.productId with
  | none => .error (.productNotFound item.productId)
  | some product =>
    if product.isActive = false then .error (.productInactive product.name)
    else if product.stockQuantity < (item.quantity : Int) then
      .error (.insufficientStock product.name)
    else
      match item.variantId with
      | none =>
          .ok { orderItem := { productId := item.productId
                               productName := product.name
                               productPrice := product.price
                               quantity := item.quantity
                               variantId := none
                               variantName := none
                               subtotal := product.price * (item.quantity : ℚ) }
                writes := [.incStock item.productId (-(item.quantity : Int))] }
      | some vid =>
        match product.variants.find? (fun v => v.id == vid) with
        | some variant =>
            if variant.stock < (item.quantity : Int) then
              .error (.insufficientVariantStock variant.name)
            else
              .ok { orderItem := { productId := item.productId
                                   productName := product.name
                                   productPrice := jsOrPrice variant.price product.price
                                   quantity := item.quantity
                                   variantId := some vid
                                   variantName := some variant.name
                                   subtotal := jsOrPrice variant.price product.price
                                     * (item.quantity : ℚ) }
                    writes := [.incStock item.productId (-(item.quantity : Int)),
                               .setVariants item.productId
                                 (decrementFirstVariant vid item.quantity product.variants)] }
        | none =>
            .ok { orderItem := { productId := item.productId
                                 productName := product.name
                                 productPrice := product.price
                                 quantity := item.quantity
                                 variantId := some vid
                                 variantName := none
                                 subtotal := product.price * (item.quantity : ℚ) }
                  writes := [.incStock item.productId (-(item.quantity : Int))] }

/-- The whole cart loop (orders.js lines 56–118) under the firebase-admin
transaction contract. The first line item's `transaction.get` runs against
the committed snapshot with an empty write buffer; when its checks pass it
buffers at least the product-level stock decrement. The next line item's
`transaction.get` is then a read issued after a buffered write, which the
SDK rejects by throwing (`readAfterWrite`), aborting the whole
transaction. A cart is therefore processed successfully only when it has
exactly one line item; the first throw aborts everything. -/
def processItems (s : List (String × Product)) :
    List ReqItem → Except PlaceError (List OrderItem × List StockWrite)
  | [] => .ok ([], [])
  | item :: rest =>
      match processItem s item with
      | .error e => .error e
      | .ok r =>
        match rest with
        | [] => .ok ([r.orderItem], r.writes)
        | _ :: _ => .error .readAfterWrite

/-- `subtotal += itemSubtotal` accumulated over the loop, starting at 0. -/
def orderSubtotal (ois : List OrderItem) : ℚ :=
  ois.foldl (fun acc oi => acc + oi.subtotal) 0

/-- The express-validator checks the claims depend on: `items` a non-empty
array, every quantity an integer ≥ 1. (The email / name / address shape
validators are not modelled; no claim turns on them.) -/
def validPlaceRequest (req : PlaceRequest) : Bool :=
  !(req.items.isEmpty) && req.items.all (fun it => 1 ≤ it.quantity)

/-- The totals computation and order construction of the transaction body
(orders.js lines 120–147): tax is a flat 10% of the subtotal, shipping is
9.99 unless the subtotal exceeds 50, the total is their plain sum — there
is no discount term and no rounding step — and the document starts with
status `pending`. -/
def mkOrder (userId : Option String) (req : PlaceRequest) (orderNumber : String)
    (ois : List OrderItem) : Order :=
  let subtotal := orderSubtotal ois
  let tax := subtotal * (1 / 10)
  let shipping : ℚ := if 50 < subtotal then 0 else 999 / 100
  let total := subtotal + tax + shipping
  { orderNumber := orderNumber
    userId := userId
    customerEmail := req.customerEmail
    customerName := req.customerName
    items := ois
    subtotal := subtotal
    tax := tax
    shipping := shipping
    total := total
    status := .pending
    cancellationReason := none
    cancelledBy := none }

/-- The place-order transaction body (orders.js lines 51–156): the cart
loop against the committed snapshot, then the order construction; returns
the order together with the buffered stock writes. -/
def placeOrderTxn (db : DB) (userId : Option String) (req : PlaceRequest)
    (orderNumber : String) : Except PlaceError (Order × List StockWrite) :=
  match processItems db.products req.items with
  | .error e => .error e
  | .ok (ois, ws) => .ok (mkOrder userId req orderNumber ois, ws)

/-- The place-order route: validator rejection first, then the transaction;
on success the buffered writes are applied and the order document inserted,
on any throw the state is exactly the pre-call state. `orderNumber` and
`orderId` are the nondeterministically generated order number and document
id. -/
def placeOrder (db : DB) (userId : Option String) (req : PlaceRequest)
    (orderNumber orderId : String) : Except PlaceError Order × DB :=
  if validPlaceRequest req = false then (.error .validationError, db)
  else
    match placeOrderTxn db userId req orderNumber with
    | .error e => (.error e, db)
    | .ok (order, ws) =>
        (.ok order,
         { db with products := applyWrites db.products ws
                   orders := db.orders ++ [(orderId, order)] })

/-- The HTTP surface of the place-order route: the validator rejection is a
400, a created order is a 201, and every error thrown inside the `try` —
insufficient stock included — lands in the catch-all, a 500 with error
label `ServerError` (orders.js lines 162–168). -/
def placeOrderStatus (db : DB) (userId : Option String) (req : PlaceRequest)
    (orderNumber orderId : String) : Nat × String :=
  match (placeOrder db userId req orderNumber orderId).1 with
  | .error .validationError => (400, "ValidationError")
  | .error _ => (500, "ServerError")
  | .ok _ => (201, "")

/-! ## CancelOrder (orders.js, `router.post('/:id/cancel')`, lines 364–439) -/

/-- Cancel-route failures: missing order (404 `NOT_FOUND`), authorization
(403 `FORBIDDEN`), the state-machine guard (400 `INVALID_STATUS` — the
spec's `InvalidStateTransition`), and the catch-all for a failed restock
transaction (500 `SERVER_ERROR`). -/
inductive CancelError
  | notFound
  | forbidden
  | invalidStatus (current : OrderStatus)
  | serverError
deriving Repr, DecidableEq

/-- The stock-restoring writes of the cancel transaction (orders.js lines
403–409): for every snapshotted order item, a relative increment of the
product-level `stockQuantity` by the ordered quantity. Nothing touches the
`variants` array. -/
def cancelWrites (items : List OrderItem) : List StockWrite :=
  items.map (fun it => .incStock it.productId (it.quantity : Int))

/-- The cancel route: look the order up, authorize (admin role or owner),
check the state machine (`pending`/`processing` only), then in one
transaction restore product-level stock from the order's snapshotted items
and set the order cancelled. Firestore `update` on a missing product
document aborts the whole transaction (caught as 500, nothing applied). -/
def cancelOrder (db : DB) (user : UserCtx) (orderId : String)
    (reason : Option String) : Except CancelError Order × DB :=
  match dbGet db.orders orderId with
  | none => (.error .notFound, db)
  | some order =>
    if !(user.role == "GronderfulBlogs") && !(order.userId == some user.id) then
      (.error .forbidden, db)
    else if !(order.status == .pending || order.status == .processing) then
      (.error (.invalidStatus order.status), db)
    else if !(order.items.all (fun it => (dbGet db.products it.productId).isSome)) then
      (.error .serverError, db)
    else
      let order' := { order with status := .cancelled
                                 cancellationReason :=
                                   some (reason.getD "Cancelled by customer")
                                 cancelledBy := some user.id }
      (.ok order',
       { db with products := applyWrites db.products (cancelWrites order.items)
                 orders := dbUpdate db.orders orderId (fun _ => order') })

/-! ## Coupon apply (coupons.js, `router.post('/apply')`, lines 178–229) -/

/-- Apply-route failures: the validator rejection and the catch-all (the
latter fires when the `usedCount` increment targets a missing coupon). -/
inductive ApplyError
  | validationError
  | serverError
deriving Repr, DecidableEq

/-- The coupon apply route. It is not a transaction and performs no
re-validation: after the validator (non-empty ids, discount ≥ 0) it
unconditionally appends a `couponUsage` record and then increments the
coupon's `usedCount`. The two writes are separate awaits, so when the
coupon document is missing the usage record has already been persisted
before the increment fails. -/
def applyCoupon (db : DB) (user : UserCtx) (couponId orderId : String)
    (discountAmount : ℚ) : Except ApplyError Unit × DB :=
  if couponId == "" || orderId == "" || discountAmount < 0 then
    (.error .validationError, db)
  else
    let db1 := { db with couponUsage := db.couponUsage ++
                   [{ couponId := couponId
                      orderId := orderId
                      userId := user.id
                      userEmail := user.email
                      discountAmount := discountAmount }] }
    match dbGet db1.coupons couponId with
    | none => (.error .serverError, db1)
    | some _ =>
        let coupons' :=
          dbUpdate db1.coupons couponId (fun c => { c with usedCount := c.usedCount + 1 })
        (.ok (), { db1 with coupons := coupons' })

/-! ## Coupon validation (coupons.js, `router.post('/validate')`, lines 10–173) -/

/-- The outcome of the validate route: an error response with its HTTP
status and machine-readable code, or a valid response carrying the rounded
discount amount and the free-shipping flag. -/
inductive ValidateResult
  | invalid (httpStatus : Nat) (errorCode : String)
  | validCoupon (discountAmount : ℚ) (freeShipping : Bool)
deriving Repr, DecidableEq

/-- `Math.round(q * 100) / 100` — round half up to 2 decimal places. -/
def mathRound2 (q : ℚ) : ℚ :=
  ((⌊q * 100 + 1 / 2⌋ : ℤ) : ℚ) / 100

/-- Per-user usage count: the `couponUsage` records filtered by couponId
and userId (coupons.js lines 86–89). -/
def userUsageCount (usage : List CouponUsage) (cid uid : String) : Nat :=
  (usage.filter (fun u => u.couponId == cid && u.userId == uid)).length

/-- Check: `coupon.startDate && coupon.startDate.toDate() > now`. -/
def startFails (c : Coupon) (now : Int) : Bool :=
  match c.startDate with
  | some t => now < t
  | none => false

/-- Check: `coupon.expiryDate && coupon.expiryDate.toDate() < now`. -/
def expiryFails (c : Coupon) (now : Int) : Bool :=
  match c.expiryDate with
  | some t => t < now
  | none => false

/-- Check: `coupon.maxUses && coupon.usedCount >= coupon.maxUses`. -/
def globalLimitFails (c : Coupon) : Bool :=
  match c.maxUses with
  | some m => !(m == 0) && m ≤ c.usedCount
  | none => false

/-- Check: per-user limit, guarded by `userId && coupon.maxUsesPerUser`,
comparing the filtered `couponUsage` count against `maxUsesPerUser`. -/
def userLimitFails (usage : List CouponUsage) (cid : String) (c : Coupon)
    (userId : Option String) : Bool :=
  truthyStr userId &&
    (match c.maxUsesPerUser with
     | some m => !(m == 0) && m ≤ userUsageCount usage cid (userId.getD "")
     | none => false)

/-- Check: `coupon.minOrderAmount && orderTotal < coupon.minOrderAmount`. -/
def minFails (c : Coupon) (orderTotal : ℚ) : Bool :=
  match c.minOrderAmount with
  | some m => !(m == 0) && orderTotal < m
  | none => false

/-- Check: category restriction — applicable categories non-empty and the
given category falsy or not contained. -/
def categoryFails (c : Coupon) (categoryId : Option String) : Bool :=
  !(c.applicableCategories.isEmpty) &&
    (!(truthyStr categoryId) ||
      !(c.applicableCategories.contains (categoryId.getD "")))

/-- Check: product restriction — applicable products non-empty and no cart
product contained. -/
def productFails (c : Coupon) (productIds : List String) : Bool :=
  !(c.applicableProducts.isEmpty) &&
    !(productIds.any (fun pid => c.applicableProducts.contains pid))

/-- The discount computation (coupons.js lines 136–149 and the response's
rounding at line 159): percentage capped by a truthy `maxDiscountAmount`,
fixed is the raw value, free shipping is 0; everything capped at the order
total and rounded half-up to cents. -/
def computeDiscount (c : Coupon) (orderTotal : ℚ) : ℚ :=
  let d0 : ℚ :=
    if c.discountType == "percentage" then
      let d1 := orderTotal * c.discountValue / 100
      match c.maxDiscountAmount with
      | some m => if m == 0 then d1 else min d1 m
      | none => d1
    else if c.discountType == "fixed" then c.discountValue
    else 0
  mathRound2 (min d0 orderTotal)

/-- The validate route (read-only): validator, the indexed lookup by
upper-cased code with `isActive == true`, then the checks in source order,
each returning immediately with its specific error code. -/
def validateCoupon (db : DB) (now : Int) (code : String) (orderTotal : ℚ)
    (userId categoryId : Option String) (productIds : List String) :
    ValidateResult :=
  if jsTrim code == "" || orderTotal < 0 then .invalid 400 "VALIDATION_ERROR"
  else
    match db.coupons.find? (fun kv => kv.2.code == jsToUpper (jsTrim code) && kv.2.isActive) with
    | none => .invalid 404 "INVALID_COUPON"
    | some (cid, coupon) =>
      if startFails coupon now then .invalid 400 "COUPON_NOT_STARTED"
      else if expiryFails coupon now then .invalid 400 "COUPON_EXPIRED"
      else if globalLimitFails coupon then .invalid 400 "COUPON_LIMIT_REACHED"
      else if userLimitFails db.couponUsage cid coupon userId then
        .invalid 400 "USER_LIMIT_REACHED"
      else if minFails coupon orderTotal then .invalid 400 "MINIMUM_NOT_MET"
      else if categoryFails coupon categoryId then
        .invalid 400 "CATEGORY_NOT_APPLICABLE"
      else if productFails coupon productIds then
        .invalid 400 "PRODUCT_NOT_APPLICABLE"
      else .validCoupon (computeDiscount coupon orderTotal)
             (coupon.discountType == "freeShipping")

/-! ## Derived notions used by the claims -/

/-- The product-level stock a store assigns to a product id. -/
def getStock (s : List (String × Product)) (k : String) : Option Int :=
  (dbGet s k).map Product.stockQuantity

/-- The stock of one variant of one product. -/
def variantStock (s : List (String × Product)) (pid vid : String) : Option Int :=
  (dbGet s pid).bind (fun p => (p.variants.find? (fun v => v.id == vid)).map Variant.stock)

/-- The net effect of one buffered write on one product's `stockQuantity`. -/
def writeDelta (w : StockWrite) (k : String) : Int :=
  match w with
  | .incStock pid d => if pid = k then d else 0
  | .setVariants _ _ => 0

/-- The net effect of a write buffer on one product's `stockQuantity`. -/
def netDelta : List StockWrite → String → Int
  | [], _ => 0
  | w :: ws, k => writeDelta w k + netDelta ws k

/-- What one buffered write does to the document of a given key. -/
def applyWriteP (w : StockWrite) (k : String) (p : Product) : Product :=
  match w with
  | .incStock pid d =>
      if pid = k then { p with stockQuantity := p.stockQuantity + d } else p
  | .setVariants pid vs => if pid = k then { p with variants := vs } else p

/-- What a write buffer does to the document of a given key. -/
def applyWritesP (ws : List StockWrite) (k : String) (p : Product) : Product :=
  ws.foldl (fun q w => applyWriteP w k q) p

/-- Total quantity a request's line items demand of one product (several
line items may name the same product). -/
def requestedQty : List ReqItem → String → Int
  | [], _ => 0
  | it :: rest, k =>
      (if it.productId = k then (it.quantity : Int) else 0) + requestedQty rest k

/-- Total quantity an order's snapshotted items reserve of one product. -/
def snapshotQty : List OrderItem → String → Int
  | [], _ => 0
  | it :: rest, k =>
      (if it.productId = k then (it.quantity : Int) else 0) + snapshotQty rest k

/-- One place-order call of a sequence: its caller, body and the two
generated identifiers. -/
structure PlaceCall where
  userId : Option String
  req : PlaceRequest
  orderNumber : String
  orderId : String
deriving Repr, DecidableEq

/-- A sequence of place-order calls run back to back (the store's
transactions serialize them; each sees the previous commits). -/
def placeMany (db : DB) : List PlaceCall → DB
  | [] => db
  | c :: cs => placeMany (placeOrder db c.userId c.req c.orderNumber c.orderId).2 cs

/-- The stock decrement one call applies to one product: the requested
quantity when the call succeeds, nothing when it fails. -/
def callDecrement (db : DB) (c : PlaceCall) (k : String) : Int :=
  match (placeOrder db c.userId c.req c.orderNumber c.orderId).1 with
  | .ok _ => requestedQty c.req.items k
  | .error _ => 0

/-- The sum of the stock decrements a sequence of calls applies to one
product. -/
def totalDecrements (db : DB) (k : String) : List PlaceCall → Int
  | [] => 0
  | c :: cs =>
      callDecrement db c k
        + totalDecrements (placeOrder db c.userId c.req c.orderNumber c.orderId).2 k cs

/-- A request line item with any client-supplied price field erased — the
data the route actually consumes. -/
def eraseClientPrice (it : ReqItem) : String × Nat × Option String :=
  (it.productId, it.quantity, it.variantId)

/-- The validate route's checks in source order, after the coupon lookup,
each paired with its error code: the route answers with the code of the
first check that fails. -/
def checksOf (usage : List CouponUsage) (now : Int) (orderTotal : ℚ)
    (userId categoryId : Option String) (productIds : List String)
    (cid : String) (c : Coupon) : List (Bool × String) :=
  [ (startFails c now, "COUPON_NOT_STARTED"),
    (expiryFails c now, "COUPON_EXPIRED"),
    (globalLimitFails c, "COUPON_LIMIT_REACHED"),
    (userLimitFails usage cid c userId, "USER_LIMIT_REACHED"),
    (minFails c orderTotal, "MINIMUM_NOT_MET"),
    (categoryFails c categoryId, "CATEGORY_NOT_APPLICABLE"),
    (productFails c productIds, "PRODUCT_NOT_APPLICABLE") ]

/-- Repeated redemption attempts of one coupon by one user, run back to
back: the state after folding every apply call. -/
def applyRepeat (db : DB) (user : UserCtx) (cid : String) :
    List (String × ℚ) → DB
  | [] => db
  | (oid, amt) :: rest =>
      applyRepeat (applyCoupon db user cid oid amt).2 user cid rest

/-- The success flags of repeated redemption attempts, in order. -/
def applyRepeatOks (db : DB) (user : UserCtx) (cid : String) :
    List (String × ℚ) → List Bool
  | [] => []
  | (oid, amt) :: rest =>
      (applyCoupon db user cid oid amt).1.isOk
        :: applyRepeatOks (applyCoupon db user cid oid amt).2 user cid rest

/-- The four derived totals of a placed order, when the call succeeded. -/
def placedTotals (r : Except PlaceError Order) : Option (ℚ × ℚ × ℚ × ℚ) :=
  match r with
  | .ok o => some (o.subtotal, o.tax, o.shipping, o.total)
  | .error _ => none

/-! ## Concrete fixtures for witnesses and counterexamples -/

/-- A plain product with one unit in stock. -/
def exProductP : Product :=
  { name := "P", price := 10, isActive := true, stockQuantity := 1, variants := [] }

/-- A one-product store. -/
def exDB1 : DB :=
  { products := [("p", exProductP)], orders := [], coupons := [], couponUsage := [] }

/-- One line item demanding more than the stock. -/
def exReqBig : PlaceRequest :=
  { items := [ { productId := "p", quantity := 5, variantId := none, clientPrice := none } ],
    customerEmail := "a@b.c", customerName := "A", clientTotal := none }

/-- A red variant with five units of variant stock. -/
def exVariantV : Variant := { id := "v1", name := "Red", price := some 12, stock := 5 }

/-- A product carrying that variant. -/
def exProductQ : Product :=
  { name := "Q", price := 10, isActive := true, stockQuantity := 7,
    variants := [exVariantV] }

/-- A store holding the variant product. -/
def exDB2 : DB :=
  { products := [("q", exProductQ)], orders := [], coupons := [], couponUsage := [] }

/-- A two-unit order for the variant. -/
def exReqVar : PlaceRequest :=
  { items := [ { productId := "q", quantity := 2, variantId := some "v1",
                 clientPrice := none } ],
    customerEmail := "a@b.c", customerName := "A", clientTotal := none }

/-- The admin caller (`role` is the source's admin role string). -/
def exAdmin : UserCtx := { id := "u1", email := "u@e.c", role := "GronderfulBlogs" }

/-- An ordinary authenticated caller. -/
def exCustomer : UserCtx := { id := "u2", email := "x@y.z", role := "customer" }

/-- The state after placing the variant order. -/
def exAfterPlace : DB := (placeOrder exDB2 (some "u1") exReqVar "ORD2" "o2").2

/-- The state after cancelling it again. -/
def exAfterCancel : DB := (cancelOrder exAfterPlace exAdmin "o2" none).2

/-- A product priced so the order total has a third decimal digit. -/
def exProductR : Product :=
  { name := "R", price := 1055 / 100, isActive := true, stockQuantity := 5, variants := [] }

/-- A store holding it. -/
def exDB3 : DB :=
  { products := [("r", exProductR)], orders := [], coupons := [], couponUsage := [] }

/-- A single-unit order for it. -/
def exReqR : PlaceRequest :=
  { items := [ { productId := "r", quantity := 1, variantId := none, clientPrice := none } ],
    customerEmail := "a@b.c", customerName := "A", clientTotal := none }

/-- A single-use coupon, never used yet. -/
def exCoupon : Coupon :=
  { code := "SAVE", isActive := true, discountType := "fixed", discountValue := 5,
    minOrderAmount := none, maxDiscountAmount := none, maxUses := some 1,
    maxUsesPerUser := none, startDate := none, expiryDate := none,
    applicableCategories := [], applicableProducts := [], usedCount := 0 }

/-- A store holding only that coupon. -/
def exDB4 : DB :=
  { products := [], orders := [], coupons := [("c1", exCoupon)], couponUsage := [] }

/-- First redemption attempt against the single-use coupon. -/
def exApply1 : Except ApplyError Unit × DB := applyCoupon exDB4 exCustomer "c1" "o1" 5

/-- Second redemption attempt, after the first. -/
def exApply2 : Except ApplyError Unit × DB := applyCoupon exApply1.2 exCustomer "c1" "o2" 5

/-- A request carrying client-supplied price fields. -/
def exReqTamper1 : PlaceRequest :=
  { items := [ { productId := "p", quantity := 1, variantId := none,
                 clientPrice := some (1 / 100) } ],
    customerEmail := "a@b.c", customerName := "A", clientTotal := some 0 }

/-- The same request with the price fields absent. -/
def exReqTamper2 : PlaceRequest :=
  { items := [ { productId := "p", quantity := 1, variantId := none,
                 clientPrice := none } ],
    customerEmail := "a@b.c", customerName := "A", clientTotal := none }

/-- The order produced by placing `exReqTamper2` against `exDB1`. -/
def exOrderSimple : Order :=
  { orderNumber := "ORD1", userId := none, customerEmail := "a@b.c",
    customerName := "A",
    items := [ { productId := "p", productName := "P", productPrice := 10,
                 quantity := 1, variantId := none, variantName := none,
                 subtotal := 10 } ],
    subtotal := 10, tax := 1, shipping := 999 / 100, total := 2099 / 100,
    status := .pending, cancellationReason := none, cancelledBy := none }

/-- The state after that placement. -/
def exAfterSimple : DB :=
  { products := [("p", { name := "P", price := 10, isActive := true,
                         stockQuantity := 0, variants := [] })],
    orders := [("oX", exOrderSimple)], coupons := [], couponUsage := [] }

/-- That placement as a sequence element. -/
def exCall : PlaceCall :=
  { userId := none, req := exReqTamper2, orderNumber := "ORD1", orderId := "oX" }

/-- A shipped order owned by the admin fixture. -/
def exShippedOrder : Order :=
  { orderNumber := "ORD9", userId := some "u1", customerEmail := "a@b.c",
    customerName := "A",
    items := [ { productId := "p", productName := "P", productPrice := 10,
                 quantity := 1, variantId := none, variantName := none,
                 subtotal := 10 } ],
    subtotal := 10, tax := 1, shipping := 999 / 100, total := 2099 / 100,
    status := .shipped, cancellationReason := none, cancelledBy := none }

/-- A store holding the shipped order and its product. -/
def exDB5 : DB :=
  { products := [("p", exProductP)], orders := [("o9", exShippedOrder)],
    coupons := [], couponUsage := [] }

/-! ## Store lemmas -/

theorem dbGet_cons {α : Type} (kv : String × α) (rest : List (String × α)) (q : String) :
    dbGet (kv :: rest) q = if kv.1 = q then some kv.2 else dbGet rest q := by
  rcases eq_or_ne kv.1 q with h | h
  · rw [if_pos h]
    unfold dbGet
    rw [List.find?_cons_of_pos _ (by simp [h])]
    rfl
  · rw [if_neg h]
    unfold dbGet
    rw [List.find?_cons_of_neg _ (by simp [h])]

theorem dbGet_dbUpdate {α : Type} (s : List (String × α)) (k q : String) (f : α → α) :
    dbGet (dbUpdate s k f) q = if k = q then (dbGet s q).map f else dbGet s q := by
  induction s with
  | nil =>
      show (none : Option α) = if k = q then Option.map f none else none
      split <;> rfl
  | cons kv rest ih =>
      show dbGet ((if (kv.1 == k) = true then (kv.1, f kv.2) else kv) :: dbUpdate rest k f) q = _
      by_cases hk : kv.1 = k
      · rw [if_pos (by simpa using hk), dbGet_cons, dbGet_cons]
        by_cases hq : k = q
        · rw [if_pos (hk.trans hq), if_pos (hk.trans hq), if_pos hq]
          rfl
        · have hq' : kv.1 ≠ q := fun h => hq (hk ▸ h)
          rw [if_neg hq', if_neg hq', if_neg hq, ih, if_neg hq]
      · rw [if_neg (by simpa using hk), dbGet_cons, dbGet_cons]
        by_cases hq : kv.1 = q
        · have hkq : k ≠ q := fun h => hk (hq.trans h.symm)
          rw [if_pos hq, if_pos hq, if_neg hkq]
        · rw [if_neg hq, if_neg hq, ih]

theorem dbGet_of_mem_of_nodupKeys {α : Type} (s : List (String × α))
    (hnd : (s.map Prod.fst).Nodup) (k : String) (a : α) (h : (k, a) ∈ s) :
    dbGet s k = some a := by
  induction s with
  | nil => cases h
  | cons kv rest ih =>
      rw [List.map_cons, List.nodup_cons] at hnd
      rcases List.mem_cons.mp h with h1 | h1
      · rw [← h1, dbGet_cons, if_pos rfl]
      · have hk : kv.1 ≠ k := by
          intro hkk
          exact hnd.1 (hkk ▸ List.mem_map.mpr ⟨(k, a), h1, rfl⟩)
        rw [dbGet_cons, if_neg hk]
        exact ih hnd.2 h1

theorem dbGet_append_of_left_none {α : Type} (s t : List (String × α)) (k : String)
    (h : dbGet s k = none) : dbGet (s ++ t) k = dbGet t k := by
  unfold dbGet at *
  rw [List.find?_append]
  cases hf : s.find? (fun kv => kv.1 == k) with
  | none => rfl
  | some kv => rw [hf] at h; cases h

theorem dbGet_map_keyed {α : Type} (g : String → α → α) (s : List (String × α)) (q : String) :
    dbGet (s.map (fun kv => (kv.1, g kv.1 kv.2))) q = (dbGet s q).map (g q) := by
  induction s with
  | nil => rfl
  | cons kv rest ih =>
      rw [List.map_cons, dbGet_cons, dbGet_cons]
      by_cases h : kv.1 = q
      · rw [if_pos h, if_pos h, h]
        rfl
      · rw [if_neg h, if_neg h, ih]

/-! ## Write-buffer lemmas -/

theorem applyWrite_eq_map (s : List (String × Product)) (w : StockWrite) :
    applyWrite s w = s.map (fun kv => (kv.1, applyWriteP w kv.1 kv.2)) := by
  cases w with
  | incStock pid d =>
      unfold applyWrite dbUpdate
      apply List.map_congr_left
      intro kv _
      by_cases h : kv.1 = pid
      · simp [applyWriteP, h]
      · have h2 : pid ≠ kv.1 := fun hh => h hh.symm
        simp [applyWriteP, h, h2]
  | setVariants pid vs =>
      unfold applyWrite dbUpdate
      apply List.map_congr_left
      intro kv _
      by_cases h : kv.1 = pid
      · simp [applyWriteP, h]
      · have h2 : pid ≠ kv.1 := fun hh => h hh.symm
        simp [applyWriteP, h, h2]

theorem applyWrites_eq_map (ws : List StockWrite) (s : List (String × Product)) :
    applyWrites s ws = s.map (fun kv => (kv.1, applyWritesP ws kv.1 kv.2)) := by
  induction ws generalizing s with
  | nil =>
      show s = s.map (fun kv => (kv.1, kv.2))
      simp
  | cons w ws ih =>
      show applyWrites (applyWrite s w) ws = _
      rw [ih, applyWrite_eq_map, List.map_map]
      rfl

theorem stockQuantity_applyWriteP (w : StockWrite) (k : String) (p : Product) :
    (applyWriteP w k p).stockQuantity = p.stockQuantity + writeDelta w k := by
  cases w with
  | incStock pid d =>
      by_cases h : pid = k
      · simp [applyWriteP, writeDelta, h]
      · simp [applyWriteP, writeDelta, h]
  | setVariants pid vs =>
      by_cases h : pid = k
      · simp [applyWriteP, writeDelta, h]
      · simp [applyWriteP, writeDelta, h]

theorem stockQuantity_applyWritesP (ws : List StockWrite) (k : String) (p : Product) :
    (applyWritesP ws k p).stockQuantity = p.stockQuantity + netDelta ws k := by
  induction ws generalizing p with
  | nil => show p.stockQuantity = p.stockQuantity + 0; rw [Int.add_zero]
  | cons w ws ih =>
      show (applyWritesP ws k (applyWriteP w k p)).stockQuantity = _
      rw [ih, stockQuantity_applyWriteP, netDelta]
      ring

theorem getStock_applyWrites (s : List (String × Product)) (ws : List StockWrite) (k : String) :
    getStock (applyWrites s ws) k = (getStock s k).map (fun n => n + netDelta ws k) := by
  unfold getStock
  rw [applyWrites_eq_map, dbGet_map_keyed]
  cases dbGet s k with
  | none => rfl
  | some p =>
      show some (applyWritesP ws k p).stockQuantity = some (p.stockQuantity + netDelta ws k)
      rw [stockQuantity_applyWritesP]

theorem dbGet_applyWrites (s : List (String × Product)) (ws : List StockWrite) (k : String) :
    dbGet (applyWrites s ws) k = (dbGet s k).map (applyWritesP ws k) := by
  rw [applyWrites_eq_map, dbGet_map_keyed]

theorem keys_applyWrites (s : List (String × Product)) (ws : List StockWrite) :
    (applyWrites s ws).map Prod.fst = s.map Prod.fst := by
  rw [applyWrites_eq_map, List.map_map]
  rfl

theorem netDelta_append (ws1 ws2 : List StockWrite) (k : String) :
    netDelta (ws1 ++ ws2) k = netDelta ws1 k + netDelta ws2 k := by
  induction ws1 with
  | nil => show netDelta ws2 k = 0 + netDelta ws2 k; rw [Int.zero_add]
  | cons w ws ih =>
      show writeDelta w k + netDelta (ws ++ ws2) k = writeDelta w k + netDelta ws k + netDelta ws2 k
      rw [ih]
      ring

/-! ## Transaction lemmas -/

theorem processItem_ok (s : List (String × Product)) (item : ReqItem) (r : ItemResult)
    (h : processItem s item = .ok r) :
    ∃ p, dbGet s item.productId = some p ∧ p.isActive = true ∧
      (item.quantity : Int) ≤ p.stockQuantity ∧
      r.orderItem.productId = item.productId ∧
      r.orderItem.quantity = item.quantity ∧
      ∀ k, netDelta r.writes k
        = if item.productId = k then -(item.quantity : Int) else 0 := by
  unfold processItem at h
  split at h
  · cases h
  rename_i product hg
  split at h
  · cases h
  rename_i hact
  split at h
  · cases h
  rename_i hstock
  have hact' : product.isActive = true := by
    revert hact; cases product.isActive <;> simp
  have hle : (item.quantity : Int) ≤ product.stockQuantity := Int.not_lt.mp hstock
  split at h
  · injection h with h2
    refine ⟨product, hg, hact', hle, ?_, ?_, ?_⟩
    · rw [← h2]
    · rw [← h2]
    · intro k
      rw [← h2]
      show writeDelta (.incStock item.productId (-(item.quantity : Int))) k + 0 = _
      by_cases hk : item.productId = k
      · simp [writeDelta, hk]
      · simp [writeDelta, hk]
  rename_i vid hvid
  split at h
  · rename_i variant hf
    split at h
    · cases h
    injection h with h2
    refine ⟨product, hg, hact', hle, ?_, ?_, ?_⟩
    · rw [← h2]
    · rw [← h2]
    · intro k
      rw [← h2]
      show writeDelta (.incStock item.productId (-(item.quantity : Int))) k
        + (writeDelta (.setVariants item.productId _) k + 0) = _
      by_cases hk : item.productId = k
      · simp [writeDelta, hk]
      · simp [writeDelta, hk]
  · injection h with h2
    refine ⟨product, hg, hact', hle, ?_, ?_, ?_⟩
    · rw [← h2]
    · rw [← h2]
    · intro k
      rw [← h2]
      show writeDelta (.incStock item.productId (-(item.quantity : Int))) k + 0 = _
      by_cases hk : item.productId = k
      · simp [writeDelta, hk]
      · simp [writeDelta, hk]

theorem processItems_ok (s : List (String × Product)) (items : List ReqItem)
    (ois : List OrderItem) (ws : List StockWrite)
    (h : processItems s items = .ok (ois, ws)) :
    (∀ item ∈ items, ∃ p, dbGet s item.productId = some p ∧ p.isActive = true ∧
        (item.quantity : Int) ≤ p.stockQuantity) ∧
    (∀ k, netDelta ws k = -(requestedQty items k)) ∧
    ois.map OrderItem.productId = items.map ReqItem.productId ∧
    ois.map OrderItem.quantity = items.map ReqItem.quantity := by
  cases items with
  | nil =>
      unfold processItems at h
      injection h with h2
      obtain ⟨h3, h4⟩ := Prod.mk.injEq .. ▸ h2
      subst h3; subst h4
      refine ⟨?_, ?_, rfl, rfl⟩
      · intro i hi; cases hi
      · intro k; simp [netDelta, requestedQty]
  | cons item rest =>
      simp only [processItems] at h
      cases h1 : processItem s item with
      | error e => rw [h1] at h; cases h
      | ok r =>
        rw [h1] at h
        cases rest with
        | cons b bs => cases h
        | nil =>
          injection h with h3
          obtain ⟨h4, h5⟩ := Prod.mk.injEq .. ▸ h3
          subst h4; subst h5
          obtain ⟨p, hp, hact, hle, hpid, hqty, hnet⟩ := processItem_ok s item r h1
          refine ⟨?_, ?_, ?_, ?_⟩
          · intro i hi
            rcases List.mem_cons.mp hi with hi | hi
            · exact hi ▸ ⟨p, hp, hact, hle⟩
            · cases hi
          · intro k
            rw [hnet k]
            simp only [requestedQty]
            by_cases hk : item.productId = k
            · rw [if_pos hk, if_pos hk]; ring
            · rw [if_neg hk, if_neg hk]; ring
          · rw [List.map_cons, List.map_cons, hpid]
            rfl
          · rw [List.map_cons, List.map_cons, hqty]
            rfl

theorem processItems_ok_nodup (s : List (String × Product)) (items : List ReqItem)
    (ois : List OrderItem) (ws : List StockWrite)
    (h : processItems s items = .ok (ois, ws)) :
    (items.map ReqItem.productId).Nodup := by
  cases items with
  | nil => exact List.nodup_nil
  | cons item rest =>
      cases rest with
      | nil => simp
      | cons b bs =>
          simp only [processItems] at h
          cases h1 : processItem s item with
          | error e => rw [h1] at h; cases h
          | ok r => rw [h1] at h; cases h

theorem requestedQty_eq_zero_of_not_mem (items : List ReqItem) (k : String)
    (h : k ∉ items.map ReqItem.productId) : requestedQty items k = 0 := by
  induction items with
  | nil => rfl
  | cons it rest ih =>
      rw [List.map_cons, List.mem_cons] at h
      push_neg at h
      rw [requestedQty, if_neg (fun hh => h.1 hh.symm), ih h.2]
      rfl

theorem requestedQty_nonneg (items : List ReqItem) (k : String) :
    0 ≤ requestedQty items k := by
  induction items with
  | nil => exact le_refl 0
  | cons it rest ih =>
      rw [requestedQty]
      have h0 : (0 : Int) ≤ if it.productId = k then (it.quantity : Int) else 0 := by
        by_cases hk : it.productId = k
        · rw [if_pos hk]; exact Int.ofNat_nonneg _
        · rw [if_neg hk]
      omega

theorem requestedQty_le (s : List (String × Product)) (items : List ReqItem)
    (hav : ∀ item ∈ items, ∃ p, dbGet s item.productId = some p ∧
      (item.quantity : Int) ≤ p.stockQuantity)
    (hnd : (items.map ReqItem.productId).Nodup) (k : String) (p : Product)
    (hk : dbGet s k = some p) (hpos : 0 ≤ p.stockQuantity) :
    requestedQty items k ≤ p.stockQuantity := by
  induction items with
  | nil => exact hpos
  | cons it rest ih =>
      rw [List.map_cons, List.nodup_cons] at hnd
      rw [requestedQty]
      by_cases hh : it.productId = k
      · obtain ⟨p', hp', hle⟩ := hav it (List.mem_cons_self it rest)
        rw [hh, hk] at hp'
        injection hp' with hp2
        have h0 : requestedQty rest k = 0 :=
          requestedQty_eq_zero_of_not_mem rest k (hh ▸ hnd.1)
        rw [if_pos hh, h0, hp2] at *
        omega
      · rw [if_neg hh]
        have := ih (fun i hi => hav i (List.mem_cons_of_mem _ hi)) hnd.2
        omega

theorem placeOrder_of_invalid (db : DB) (u : Option String) (req : PlaceRequest)
    (onum oid : String) (hv : validPlaceRequest req = false) :
    placeOrder db u req onum oid = (.error .validationError, db) := by
  unfold placeOrder
  rw [if_pos hv]

theorem placeOrder_of_txn_error (db : DB) (u : Option String) (req : PlaceRequest)
    (onum oid : String) (e : PlaceError) (hv : ¬validPlaceRequest req = false)
    (ht : placeOrderTxn db u req onum = .error e) :
    placeOrder db u req onum oid = (.error e, db) := by
  unfold placeOrder
  rw [if_neg hv, ht]

theorem placeOrder_of_txn_ok (db : DB) (u : Option String) (req : PlaceRequest)
    (onum oid : String) (order : Order) (ws : List StockWrite)
    (hv : ¬validPlaceRequest req = false)
    (ht : placeOrderTxn db u req onum = .ok (order, ws)) :
    placeOrder db u req onum oid =
      (.ok order,
       { db with products := applyWrites db.products ws
                 orders := db.orders ++ [(oid, order)] }) := by
  unfold placeOrder
  rw [if_neg hv, ht]

theorem placeOrderTxn_of_items_ok (db : DB) (u : Option String) (req : PlaceRequest)
    (onum : String) (ois : List OrderItem) (ws : List StockWrite)
    (hpi : processItems db.products req.items = .ok (ois, ws)) :
    placeOrderTxn db u req onum = .ok (mkOrder u req onum ois, ws) := by
  unfold placeOrderTxn
  rw [hpi]

theorem placeOrder_ok (db : DB) (u : Option String) (req : PlaceRequest)
    (onum oid : String) (order : Order) (db2 : DB)
    (h : placeOrder db u req onum oid = (.ok order, db2)) :
    ∃ ws, processItems db.products req.items = .ok (order.items, ws) ∧
      db2.products = applyWrites db.products ws ∧
      db2.orders = db.orders ++ [(oid, order)] ∧
      db2.coupons = db.coupons ∧ db2.couponUsage = db.couponUsage ∧
      order.status = .pending ∧ order.userId = u ∧
      validPlaceRequest req = true := by
  by_cases hv : validPlaceRequest req = false
  · rw [placeOrder_of_invalid db u req onum oid hv] at h
    obtain ⟨h1, h2⟩ := Prod.mk.injEq .. ▸ h
    cases h1
  have hv' : validPlaceRequest req = true := by
    revert hv; cases validPlaceRequest req <;> simp
  cases ht : placeOrderTxn db u req onum with
  | error e =>
      rw [placeOrder_of_txn_error db u req onum oid e hv ht] at h
      obtain ⟨h1, h2⟩ := Prod.mk.injEq .. ▸ h
      cases h1
  | ok pr =>
    obtain ⟨o, ws⟩ := pr
    rw [placeOrder_of_txn_ok db u req onum oid o ws hv ht] at h
    obtain ⟨h1, h2⟩ := Prod.mk.injEq .. ▸ h
    injection h1 with h1
    subst h1
    unfold placeOrderTxn at ht
    cases hpi : processItems db.products req.items with
    | error e => rw [hpi] at ht; cases ht
    | ok pr2 =>
      obtain ⟨ois, ws2⟩ := pr2
      rw [hpi] at ht
      injection ht with ht2
      obtain ⟨ht3, ht4⟩ := Prod.mk.injEq .. ▸ ht2
      subst ht4
      subst ht3
      subst h2
      exact ⟨ws2, rfl, rfl, rfl, rfl, rfl, rfl, rfl, hv'⟩

theorem placeOrder_error_snd (db : DB) (u : Option String) (req : PlaceRequest)
    (onum oid : String) (e : PlaceError)
    (h : (placeOrder db u req onum oid).1 = .error e) :
    (placeOrder db u req onum oid).2 = db := by
  by_cases hv : validPlaceRequest req = false
  · rw [placeOrder_of_invalid db u req onum oid hv]
  cases ht : placeOrderTxn db u req onum with
  | error e2 => rw [placeOrder_of_txn_error db u req onum oid e2 hv ht]
  | ok pr =>
      obtain ⟨o, ws⟩ := pr
      rw [placeOrder_of_txn_ok db u req onum oid o ws hv ht] at h
      cases h

theorem getStock_place_step (db : DB) (c : PlaceCall) (k : String) :
    getStock (placeOrder db c.userId c.req c.orderNumber c.orderId).2.products k
      = (getStock db.products k).map (fun n => n - callDecrement db c k) := by
  unfold callDecrement
  cases h : (placeOrder db c.userId c.req c.orderNumber c.orderId).1 with
  | error e =>
      rw [placeOrder_error_snd db c.userId c.req c.orderNumber c.orderId e h]
      cases getStock db.products k with
      | none => rfl
      | some n => show some n = some (n - 0); rw [Int.sub_zero]
  | ok order =>
      have h2 : placeOrder db c.userId c.req c.orderNumber c.orderId
          = (.ok order, (placeOrder db c.userId c.req c.orderNumber c.orderId).2) := by
        rw [← h]
      obtain ⟨ws, hpi, hprod, -, -, -, -, -, -⟩ :=
        placeOrder_ok db c.userId c.req c.orderNumber c.orderId order _ h2
      obtain ⟨-, hnet, -, -⟩ := processItems_ok db.products c.req.items order.items ws hpi
      rw [hprod, getStock_applyWrites, hnet k]
      cases getStock db.products k with
      | none => rfl
      | some n => show some (n + -(requestedQty c.req.items k)) = some (n - _); rw [Int.sub_eq_add_neg]

theorem placeOrder_ok_mkOrder (db : DB) (u : Option String) (req : PlaceRequest)
    (onum oid : String) (order : Order) (db2 : DB)
    (h : placeOrder db u req onum oid = (.ok order, db2)) :
    ∃ ois ws, processItems db.products req.items = .ok (ois, ws) ∧
      order = mkOrder u req onum ois := by
  by_cases hv : validPlaceRequest req = false
  · rw [placeOrder_of_invalid db u req onum oid hv] at h
    obtain ⟨h1, h2⟩ := Prod.mk.injEq .. ▸ h
    cases h1
  cases ht : placeOrderTxn db u req onum with
  | error e =>
      rw [placeOrder_of_txn_error db u req onum oid e hv ht] at h
      obtain ⟨h1, h2⟩ := Prod.mk.injEq .. ▸ h
      cases h1
  | ok pr =>
    obtain ⟨o, ws⟩ := pr
    rw [placeOrder_of_txn_ok db u req onum oid o ws hv ht] at h
    obtain ⟨h1, h2⟩ := Prod.mk.injEq .. ▸ h
    injection h1 with h1
    subst h1
    unfold placeOrderTxn at ht
    cases hpi : processItems db.products req.items with
    | error e => rw [hpi] at ht; cases ht
    | ok pr2 =>
      obtain ⟨ois, ws2⟩ := pr2
      rw [hpi] at ht
      injection ht with ht2
      obtain ⟨ht3, ht4⟩ := Prod.mk.injEq .. ▸ ht2
      subst ht4
      subst ht3
      exact ⟨ois, ws2, rfl, rfl⟩

/-! ## Claim C2 -/

/-- C2: every PlaceOrder call that fails — for any reason the route can
fail — leaves the whole state (products and variant stock, orders, coupons,
coupon usage) exactly as it was before the call. -/
theorem placeOrder_failure_no_partial_effects (db : DB) (u : Option String)
    (req : PlaceRequest) (onum oid : String) (e : PlaceError)
    (h : (placeOrder db u req onum oid).1 = .error e) :
    (placeOrder db u req onum oid).2 = db :=
  placeOrder_error_snd db u req onum oid e h

/-- C2 witness: an insufficient-stock failure at a concrete store leaves
the store untouched. -/
theorem placeOrder_failure_no_partial_effects_witness :
    (placeOrder exDB1 none exReqBig "ORD1" "o1").2 = exDB1 :=
  placeOrder_failure_no_partial_effects exDB1 none exReqBig "ORD1" "o1"
    (.insufficientStock "P") rfl

/-! ## Claim C6 -/

/-- C6 (amended): for every successful PlaceOrder, tax is exactly 10% of
the subtotal and shipping is 0 when the subtotal exceeds 50 and 9.99
otherwise; the total is the plain sum subtotal + tax + shipping — there is
no discount term (order placement never applies a coupon) and no rounding
step. -/
theorem placeOrder_totals_formula (db : DB) (u : Option String)
    (req : PlaceRequest) (onum oid : String) (order : Order) (db2 : DB)
    (h : placeOrder db u req onum oid = (.ok order, db2)) :
    order.tax = order.subtotal * (1 / 10) ∧
    order.shipping = (if 50 < order.subtotal then (0 : ℚ) else 999 / 100) ∧
    order.total = order.subtotal + order.tax + order.shipping := by
  obtain ⟨ois, ws, -, rfl⟩ := placeOrder_ok_mkOrder db u req onum oid order db2 h
  exact ⟨rfl, rfl, rfl⟩

/-- C6 counterexample: a successful order with totals
(10.55, 1.055, 9.99, 21.595); the claimed round-half-up of
subtotal − discount + tax + shipping is 21.60, which the stored total is
not — the code performs no rounding. -/
theorem placeOrder_total_not_rounded :
    placedTotals (placeOrder exDB3 none exReqR "ORD3" "o3").1
        = some (1055 / 100, 1055 / 1000, 999 / 100, 4319 / 200) ∧
      (4319 / 200 : ℚ) ≠ mathRound2 (1055 / 100 - 0 + 1055 / 1000 + 999 / 100) := by
  constructor
  · norm_num [placedTotals, placeOrder, validPlaceRequest, placeOrderTxn, processItems,
      processItem, dbGet, exDB3, exReqR, exProductR, mkOrder, orderSubtotal]
  · unfold mathRound2
    norm_num

/-! ## Claim C7 -/

/-- C7 (amended): a PlaceOrder call that fails because a line item's
requested quantity exceeds the available (product or variant) stock is
surfaced as HTTP 500 with error label `ServerError` — the route's
catch-all — not as a 409. -/
theorem insufficientStock_surfaced_as_500 (db : DB) (u : Option String)
    (req : PlaceRequest) (onum oid : String) (name : String)
    (h : (placeOrder db u req onum oid).1 = .error (.insufficientStock name) ∨
         (placeOrder db u req onum oid).1 = .error (.insufficientVariantStock name)) :
    placeOrderStatus db u req onum oid = (500, "ServerError") := by
  unfold placeOrderStatus
  rcases h with h | h <;> rw [h]

/-- C7 witness: the concrete insufficient-stock call surfaces as 500. -/
theorem insufficientStock_surfaced_as_500_witness :
    placeOrderStatus exDB1 none exReqBig "ORD1" "o1" = (500, "ServerError") :=
  insufficientStock_surfaced_as_500 exDB1 none exReqBig "ORD1" "o1" "P" (Or.inl rfl)

/-- C7 counterexample: an insufficient-stock failure answers 500
`ServerError`, not the claimed 409. -/
theorem insufficientStock_not_409 :
    (placeOrder exDB1 none exReqBig "ORD1" "o1").1
        = .error (.insufficientStock "P") ∧
    placeOrderStatus exDB1 none exReqBig "ORD1" "o1" = (500, "ServerError") ∧
    (placeOrderStatus exDB1 none exReqBig "ORD1" "o1").1 ≠ 409 := by
  exact ⟨rfl, rfl, by decide⟩

/-! ## Claim C10 -/

/-- C10: a line item whose `variantId` matches no variant of its product
does not fail with a variant error: the item falls back to the base
product — the product's price is charged, availability is checked against
(and the buffered decrement touches) only the product-level
`stockQuantity`, and `variantName` is recorded as null. -/
theorem processItem_unknown_variant_falls_back (s : List (String × Product))
    (pid : String) (qty : Nat) (vid : String) (cp : Option ℚ) (product : Product)
    (hp : dbGet s pid = some product)
    (hv : product.variants.find? (fun v => v.id == vid) = none) :
    processItem s { productId := pid, quantity := qty, variantId := some vid,
                    clientPrice := cp }
      = if product.isActive = false then .error (.productInactive product.name)
        else if product.stockQuantity < (qty : Int) then
          .error (.insufficientStock product.name)
        else .ok { orderItem := { productId := pid
                                  productName := product.name
                                  productPrice := product.price
                                  quantity := qty
                                  variantId := some vid
                                  variantName := none
                                  subtotal := product.price * (qty : ℚ) }
                   writes := [.incStock pid (-(qty : Int))] } := by
  unfold processItem
  simp only [hp, hv]

/-- C10 witness: a bogus variant id on the variant-carrying fixture product
behaves exactly as the base product. -/
theorem processItem_unknown_variant_falls_back_witness :
    processItem exDB2.products
        { productId := "q", quantity := 2, variantId := some "nope",
          clientPrice := none }
      = if exProductQ.isActive = false then .error (.productInactive exProductQ.name)
        else if exProductQ.stockQuantity < (2 : Int) then
          .error (.insufficientStock exProductQ.name)
        else .ok { orderItem := { productId := "q"
                                  productName := exProductQ.name
                                  productPrice := exProductQ.price
                                  quantity := 2
                                  variantId := some "nope"
                                  variantName := none
                                  subtotal := exProductQ.price * (2 : ℚ) }
                   writes := [.incStock "q" (-(2 : Int))] } :=
  processItem_unknown_variant_falls_back exDB2.products "q" 2 "nope" none
    exProductQ rfl rfl

/-! ## Counterexamples to C3, C4 -/

/-- C3 counterexample: two redemption attempts against a coupon with
maxUses = 1 both succeed and leave usedCount = 2 — the apply route neither
re-validates limits nor runs in a transaction, so usedCount exceeds
maxUses and there is no `COUPON_LIMIT_REACHED` failure. -/
theorem applyCoupon_exceeds_maxUses :
    exCoupon.maxUses = some 1 ∧
    exApply1.1 = .ok () ∧ exApply2.1 = .ok () ∧
    (dbGet exApply2.2.coupons "c1").map Coupon.usedCount = some 2 := by
  exact ⟨rfl, rfl, rfl, rfl⟩

/-- C4 counterexample: placing a two-unit variant order and cancelling it
restores the product-level stockQuantity but leaves the variant stock at 3,
not its pre-order value 5 — the cancel transaction never touches the
variants array. -/
theorem cancel_does_not_restore_variant_stock :
    (placeOrder exDB2 (some "u1") exReqVar "ORD2" "o2").1.isOk = true ∧
    (cancelOrder exAfterPlace exAdmin "o2" none).1.isOk = true ∧
    getStock exAfterCancel.products "q" = getStock exDB2.products "q" ∧
    variantStock exDB2.products "q" "v1" = some 5 ∧
    variantStock exAfterCancel.products "q" "v1" = some 3 := by
  exact ⟨rfl, rfl, rfl, rfl, rfl⟩

/-! ## Claim C5 -/

/-- C5: CancelOrder succeeds — and then sets the order's status to
cancelled — only when the order's current status is pending or processing;
for an order in a terminal status (shipped, delivered or cancelled), an
authorized caller gets the InvalidStateTransition rejection (the route's
400 `INVALID_STATUS`) and neither the order nor any product stock changes,
so a second cancel is a rejected no-op and not a double restock. -/
theorem cancelOrder_state_guard (db : DB) (user : UserCtx) (oid : String)
    (reason : Option String) :
    (∀ o2 db2, cancelOrder db user oid reason = (.ok o2, db2) →
       ∃ order, dbGet db.orders oid = some order ∧
         (order.status = .pending ∨ order.status = .processing) ∧
         o2.status = .cancelled) ∧
    (∀ order, dbGet db.orders oid = some order →
       (user.role = "GronderfulBlogs" ∨ order.userId = some user.id) →
       (order.status = .shipped ∨ order.status = .delivered ∨
         order.status = .cancelled) →
       cancelOrder db user oid reason = (.error (.invalidStatus order.status), db)) := by
  constructor
  · intro o2 db2 h
    unfold cancelOrder at h
    split at h
    · obtain ⟨h1, -⟩ := Prod.mk.injEq .. ▸ h
      cases h1
    rename_i order hg
    split at h
    · obtain ⟨h1, -⟩ := Prod.mk.injEq .. ▸ h
      cases h1
    rename_i hauth
    split at h
    · obtain ⟨h1, -⟩ := Prod.mk.injEq .. ▸ h
      cases h1
    rename_i hstat
    split at h
    · obtain ⟨h1, -⟩ := Prod.mk.injEq .. ▸ h
      cases h1
    obtain ⟨h1, h2⟩ := Prod.mk.injEq .. ▸ h
    injection h1 with h1
    refine ⟨order, hg, ?_, ?_⟩
    · revert hstat
      cases order.status <;> simp
    · rw [← h1]
  · intro order hg hauth hterm
    have hauthb : (!(user.role == "GronderfulBlogs")
        && !(order.userId == some user.id)) = false := by
      rcases hauth with h | h <;> simp [h]
    have hstatb : (!(order.status == OrderStatus.pending
        || order.status == OrderStatus.processing)) = true := by
      rcases hterm with h | h | h <;> simp [h]
    unfold cancelOrder
    simp only [hg, hauthb, hstatb]
    simp

/-- C5 witness: cancelling the concrete shipped order is rejected with the
invalid-status error and leaves the state untouched. -/
theorem cancelOrder_state_guard_witness :
    cancelOrder exDB5 exAdmin "o9" none
      = (.error (.invalidStatus .shipped), exDB5) :=
  (cancelOrder_state_guard exDB5 exAdmin "o9" none).2 exShippedOrder rfl
    (Or.inl rfl) (Or.inl rfl)

/-! ## Claim C9 -/

theorem processItem_eraseClientPrice (s : List (String × Product)) (it1 it2 : ReqItem)
    (h : eraseClientPrice it1 = eraseClientPrice it2) :
    processItem s it1 = processItem s it2 := by
  have h1 : it1.productId = it2.productId := congrArg Prod.fst h
  have h2 : it1.quantity = it2.quantity := congrArg (fun t => t.2.1) h
  have h3 : it1.variantId = it2.variantId := congrArg (fun t => t.2.2) h
  unfold processItem
  rw [h1, h2, h3]

theorem processItems_eraseClientPrice (s : List (String × Product))
    (l1 l2 : List ReqItem) (h : l1.map eraseClientPrice = l2.map eraseClientPrice) :
    processItems s l1 = processItems s l2 := by
  cases l1 with
  | nil =>
      cases l2 with
      | nil => rfl
      | cons b bs => simp at h
  | cons a as =>
      cases l2 with
      | nil => simp at h
      | cons b bs =>
        rw [List.map_cons, List.map_cons] at h
        injection h with h1 h2
        simp only [processItems]
        rw [processItem_eraseClientPrice s a b h1]
        cases as with
        | nil =>
            cases bs with
            | nil => rfl
            | cons c cs => simp at h2
        | cons c cs =>
            cases bs with
            | nil => simp at h2
            | cons d ds => rfl

theorem all_quantity_eraseClientPrice (l1 l2 : List ReqItem)
    (h : l1.map eraseClientPrice = l2.map eraseClientPrice) :
    (l1.all fun it => 1 ≤ it.quantity) = (l2.all fun it => 1 ≤ it.quantity) := by
  induction l1 generalizing l2 with
  | nil =>
      cases l2 with
      | nil => rfl
      | cons b bs => simp at h
  | cons a as ih =>
      cases l2 with
      | nil => simp at h
      | cons b bs =>
          rw [List.map_cons, List.map_cons] at h
          injection h with h1 h2
          have hq : a.quantity = b.quantity := congrArg (fun t => t.2.1) h1
          rw [List.all_cons, List.all_cons, hq, ih bs h2]

theorem validPlaceRequest_eraseClientPrice (r1 r2 : PlaceRequest)
    (h : r1.items.map eraseClientPrice = r2.items.map eraseClientPrice) :
    validPlaceRequest r1 = validPlaceRequest r2 := by
  have hlen : r1.items.length = r2.items.length := by
    have h2 := congrArg List.length h
    simpa using h2
  have hie : r1.items.isEmpty = r2.items.isEmpty := by
    cases hl1 : r1.items <;> cases hl2 : r2.items <;>
      rw [hl1, hl2] at hlen <;> simp at hlen ⊢
  unfold validPlaceRequest
  rw [hie, all_quantity_eraseClientPrice r1.items r2.items h]

/-- C9: two PlaceOrder requests that differ only in client-supplied
price-like fields (per-item `clientPrice`, top-level `clientTotal`) produce
identical results — the same order, the same per-item unit prices and line
subtotals, the same totals and the same state — because every price is
re-derived from the product or variant document read inside the
transaction, never taken from the caller. -/
theorem placeOrder_ignores_client_prices (db : DB) (u : Option String)
    (onum oid : String) (req1 req2 : PlaceRequest)
    (hitems : req1.items.map eraseClientPrice = req2.items.map eraseClientPrice)
    (hemail : req1.customerEmail = req2.customerEmail)
    (hname : req1.customerName = req2.customerName) :
    placeOrder db u req1 onum oid = placeOrder db u req2 onum oid := by
  unfold placeOrder placeOrderTxn mkOrder
  rw [validPlaceRequest_eraseClientPrice req1 req2 hitems,
      processItems_eraseClientPrice db.products req1.items req2.items hitems,
      hemail, hname]

/-- C9 witness: a request with tampered client prices and one without
produce identical orders and states. -/
theorem placeOrder_ignores_client_prices_witness :
    placeOrder exDB1 none exReqTamper1 "ORD1" "oX"
      = placeOrder exDB1 none exReqTamper2 "ORD1" "oX" :=
  placeOrder_ignores_client_prices exDB1 none "ORD1" "oX" exReqTamper1 exReqTamper2
    rfl rfl rfl

/-! ## Claim C8 -/

/-- C8: once the coupon is found (by upper-cased code, active only), the
validate route runs its checks in exactly the source order — start date,
expiry date, global usage limit, per-user usage limit (from the filtered
CouponUsage records), minimum order amount, category applicability, product
applicability — and answers with the error code of the first failing
check, the later checks left unevaluated: the result is the first failure
of the ordered check list, whatever the later checks would say. -/
theorem validateCoupon_first_failing_check (db : DB) (now : Int) (code : String)
    (orderTotal : ℚ) (userId categoryId : Option String) (productIds : List String)
    (cid : String) (c : Coupon)
    (h1 : ¬jsTrim code = "") (h2 : ¬orderTotal < 0)
    (hfind : db.coupons.find?
        (fun kv => kv.2.code == jsToUpper (jsTrim code) && kv.2.isActive)
      = some (cid, c)) :
    validateCoupon db now code orderTotal userId categoryId productIds
      = match (checksOf db.couponUsage now orderTotal userId categoryId productIds
            cid c).find? (fun pr => pr.1) with
        | some pr => .invalid 400 pr.2
        | none => .validCoupon (computeDiscount c orderTotal)
            (c.discountType == "freeShipping") := by
  have hvalid : (jsTrim code == "" || decide (orderTotal < 0)) = false := by
    simp [h1, h2]
  unfold validateCoupon
  simp only [hvalid, Bool.false_eq_true, if_false, hfind]
  by_cases hA : startFails c now
  · simp [checksOf, List.find?, hA]
  by_cases hB : expiryFails c now
  · simp [checksOf, List.find?, hA, hB]
  by_cases hC : globalLimitFails c
  · simp [checksOf, List.find?, hA, hB, hC]
  by_cases hD : userLimitFails db.couponUsage cid c userId
  · simp [checksOf, List.find?, hA, hB, hC, hD]
  by_cases hE : minFails c orderTotal
  · simp [checksOf, List.find?, hA, hB, hC, hD, hE]
  by_cases hF : categoryFails c categoryId
  · simp [checksOf, List.find?, hA, hB, hC, hD, hE, hF]
  by_cases hG : productFails c productIds
  · simp [checksOf, List.find?, hA, hB, hC, hD, hE, hF, hG]
  simp [checksOf, List.find?, hA, hB, hC, hD, hE, hF, hG]

/-- C8 witness: the fixture coupon at a concrete valid call — every check
passes and the route answers with the computed discount, matching the
ordered-check characterization. -/
theorem validateCoupon_first_failing_check_witness :
    validateCoupon exDB4 0 "save" 100 none none []
      = match (checksOf exDB4.couponUsage 0 100 none none [] "c1"
            exCoupon).find? (fun pr => pr.1) with
        | some pr => .invalid 400 pr.2
        | none => .validCoupon (computeDiscount exCoupon 100)
            (exCoupon.discountType == "freeShipping") :=
  validateCoupon_first_failing_check exDB4 0 "save" 100 none none [] "c1" exCoupon
    (by decide) (by norm_num) rfl

/-! ## Claim C3 -/

theorem applyCoupon_step (db : DB) (user : UserCtx) (cid oid : String) (amt : ℚ)
    (c : Coupon) (hcid : ¬cid = "") (hoid : ¬oid = "") (hamt : ¬amt < 0)
    (hc : dbGet db.coupons cid = some c) :
    applyCoupon db user cid oid amt
      = (.ok (),
         { db with
             coupons := dbUpdate db.coupons cid
               (fun c0 => { c0 with usedCount := c0.usedCount + 1 })
             couponUsage := db.couponUsage
               ++ [{ couponId := cid, orderId := oid, userId := user.id,
                     userEmail := user.email, discountAmount := amt }] }) := by
  have hcond : (cid == "" || oid == "" || decide (amt < 0)) = false := by
    simp [hcid, hoid, hamt]
  unfold applyCoupon
  have hc2 : dbGet
      ({ db with couponUsage := db.couponUsage
          ++ [{ couponId := cid, orderId := oid, userId := user.id,
                userEmail := user.email, discountAmount := amt }] } : DB).coupons cid
      = some c := hc
  simp only [hc2]
  rw [if_neg (fun hcontra => by rw [hcond] at hcontra; cases hcontra)]

/-- C3 (amended): the coupon apply (redeem) route performs no usage-limit
re-validation and runs no transaction: every attempt against an existing
coupon succeeds, increments usedCount by one and appends a CouponUsage
record; N attempts yield N successes and leave usedCount at its initial
value plus N — with maxUses = 1 this exceeds maxUses instead of producing
N − 1 `COUPON_LIMIT_REACHED` failures. -/
theorem applyCoupon_unlimited_redemptions (db : DB) (user : UserCtx) (cid : String)
    (c : Coupon) (pairs : List (String × ℚ))
    (hcid : ¬cid = "") (hc : dbGet db.coupons cid = some c)
    (hok : ∀ pr ∈ pairs, ¬pr.1 = "" ∧ 0 ≤ pr.2) :
    applyRepeatOks db user cid pairs = pairs.map (fun _ => true) ∧
    ∃ c2, dbGet (applyRepeat db user cid pairs).coupons cid = some c2 ∧
      c2.usedCount = c.usedCount + pairs.length ∧
      (applyRepeat db user cid pairs).couponUsage.length
        = db.couponUsage.length + pairs.length := by
  induction pairs generalizing db c with
  | nil => exact ⟨rfl, c, hc, rfl, rfl⟩
  | cons pr rest ih =>
      obtain ⟨oid, amt⟩ := pr
      obtain ⟨hoid, hamt⟩ := hok (oid, amt) (List.mem_cons_self _ _)
      have hstep := applyCoupon_step db user cid oid amt c hcid hoid
        (not_lt.mpr hamt) hc
      have hc2 : dbGet (applyCoupon db user cid oid amt).2.coupons cid
          = some { c with usedCount := c.usedCount + 1 } := by
        rw [hstep]
        show dbGet (dbUpdate db.coupons cid
            (fun c0 => { c0 with usedCount := c0.usedCount + 1 })) cid
          = some { c with usedCount := c.usedCount + 1 }
        rw [dbGet_dbUpdate, if_pos rfl, hc]
        rfl
      obtain ⟨ihoks, c2, ihget, ihcount, ihlen⟩ :=
        ih (applyCoupon db user cid oid amt).2 { c with usedCount := c.usedCount + 1 }
          hc2 (fun q hq => hok q (List.mem_cons_of_mem _ hq))
      refine ⟨?_, c2, ?_, ?_, ?_⟩
      · show (applyCoupon db user cid oid amt).1.isOk
            :: applyRepeatOks (applyCoupon db user cid oid amt).2 user cid rest
          = ((oid, amt) :: rest).map (fun _ => true)
        rw [List.map_cons, ihoks, hstep]
        rfl
      · exact ihget
      · have ihcount2 : c2.usedCount = c.usedCount + 1 + rest.length := ihcount
        rw [ihcount2, List.length_cons]
        omega
      · show (applyRepeat (applyCoupon db user cid oid amt).2 user cid
            rest).couponUsage.length
          = db.couponUsage.length + ((oid, amt) :: rest).length
        rw [ihlen]
        have hlen2 : (applyCoupon db user cid oid amt).2.couponUsage.length
            = db.couponUsage.length + 1 := by
          rw [hstep]
          simp
        rw [hlen2, List.length_cons]
        omega

/-- C3 witness: two attempts against the single-use fixture coupon both
succeed and leave usedCount = 2. -/
theorem applyCoupon_unlimited_redemptions_witness :
    applyRepeatOks exDB4 exCustomer "c1" [("o1", 5), ("o2", 5)]
        = [("o1", (5 : ℚ)), ("o2", 5)].map (fun _ => true) ∧
    ∃ c2, dbGet (applyRepeat exDB4 exCustomer "c1" [("o1", 5), ("o2", 5)]).coupons "c1"
        = some c2 ∧
      c2.usedCount = exCoupon.usedCount + [("o1", (5 : ℚ)), ("o2", 5)].length ∧
      (applyRepeat exDB4 exCustomer "c1" [("o1", 5), ("o2", 5)]).couponUsage.length
        = exDB4.couponUsage.length + [("o1", (5 : ℚ)), ("o2", 5)].length :=
  applyCoupon_unlimited_redemptions exDB4 exCustomer "c1" exCoupon
    [("o1", 5), ("o2", 5)] (by decide) rfl
    (by
      intro pr hpr
      rcases List.mem_cons.mp hpr with h | h
      · rw [h]; exact ⟨by decide, by norm_num⟩
      rcases List.mem_cons.mp h with h | h
      · rw [h]; exact ⟨by decide, by norm_num⟩
      · cases h)

/-! ## Claim C1 -/

theorem keys_place_step (db : DB) (c : PlaceCall) :
    ((placeOrder db c.userId c.req c.orderNumber c.orderId).2.products).map Prod.fst
      = db.products.map Prod.fst := by
  cases h : (placeOrder db c.userId c.req c.orderNumber c.orderId).1 with
  | error e =>
      rw [placeOrder_error_snd db c.userId c.req c.orderNumber c.orderId e h]
  | ok order =>
      have h2 : placeOrder db c.userId c.req c.orderNumber c.orderId
          = (.ok order, (placeOrder db c.userId c.req c.orderNumber c.orderId).2) := by
        rw [← h]
      obtain ⟨ws, -, hprod, -, -, -, -, -, -⟩ :=
        placeOrder_ok db c.userId c.req c.orderNumber c.orderId order _ h2
      rw [hprod, keys_applyWrites]

theorem stock_nonneg_place_step (db : DB) (c : PlaceCall)
    (hkeys : (db.products.map Prod.fst).Nodup)
    (hpos : ∀ kv ∈ db.products, 0 ≤ (Prod.snd kv).stockQuantity) :
    ∀ kv ∈ (placeOrder db c.userId c.req c.orderNumber c.orderId).2.products,
      0 ≤ (Prod.snd kv).stockQuantity := by
  cases h : (placeOrder db c.userId c.req c.orderNumber c.orderId).1 with
  | error e =>
      rw [placeOrder_error_snd db c.userId c.req c.orderNumber c.orderId e h]
      exact hpos
  | ok order =>
      have h2 : placeOrder db c.userId c.req c.orderNumber c.orderId
          = (.ok order, (placeOrder db c.userId c.req c.orderNumber c.orderId).2) := by
        rw [← h]
      obtain ⟨ws, hpi, hprod, -, -, -, -, -, -⟩ :=
        placeOrder_ok db c.userId c.req c.orderNumber c.orderId order _ h2
      obtain ⟨hav, hnet, -, -⟩ :=
        processItems_ok db.products c.req.items order.items ws hpi
      have hnd : (c.req.items.map ReqItem.productId).Nodup :=
        processItems_ok_nodup db.products c.req.items order.items ws hpi
      intro kv hkv
      rw [hprod, applyWrites_eq_map] at hkv
      obtain ⟨kv0, hkv0, rfl⟩ := List.mem_map.mp hkv
      show 0 ≤ (applyWritesP ws kv0.1 kv0.2).stockQuantity
      rw [stockQuantity_applyWritesP, hnet kv0.1]
      have hget : dbGet db.products kv0.1 = some kv0.2 :=
        dbGet_of_mem_of_nodupKeys db.products hkeys kv0.1 kv0.2 hkv0
      have hle := requestedQty_le db.products c.req.items
        (fun item hi => (hav item hi).imp (fun p hp => ⟨hp.1, hp.2.2⟩))
        hnd kv0.1 kv0.2 hget (hpos kv0 hkv0)
      omega

theorem getStock_placeMany (db : DB) (calls : List PlaceCall) (k : String) :
    getStock (placeMany db calls).products k
      = (getStock db.products k).map (fun n => n - totalDecrements db k calls) := by
  induction calls generalizing db with
  | nil =>
      show getStock db.products k
        = (getStock db.products k).map (fun n => n - totalDecrements db k [])
      cases getStock db.products k with
      | none => rfl
      | some n =>
          show some n = some (n - 0)
          rw [Int.sub_zero]
  | cons c cs ih =>
      show getStock (placeMany (placeOrder db c.userId c.req c.orderNumber
        c.orderId).2 cs).products k = _
      rw [ih, getStock_place_step]
      cases getStock db.products k with
      | none => rfl
      | some n =>
          show some (n - callDecrement db c k
            - totalDecrements (placeOrder db c.userId c.req c.orderNumber c.orderId).2 k cs)
            = some (n - (callDecrement db c k
              + totalDecrements (placeOrder db c.userId c.req c.orderNumber c.orderId).2 k cs))
          congr 1
          ring

theorem stock_nonneg_placeMany (db : DB) (calls : List PlaceCall)
    (hkeys : (db.products.map Prod.fst).Nodup)
    (hpos : ∀ kv ∈ db.products, 0 ≤ (Prod.snd kv).stockQuantity) :
    ∀ kv ∈ (placeMany db calls).products, 0 ≤ (Prod.snd kv).stockQuantity := by
  induction calls generalizing db with
  | nil => exact hpos
  | cons c cs ih =>
      show ∀ kv ∈ (placeMany (placeOrder db c.userId c.req c.orderNumber
        c.orderId).2 cs).products, 0 ≤ (Prod.snd kv).stockQuantity
      refine ih _ ?_ ?_
      · rw [keys_place_step]
        exact hkeys
      · exact stock_nonneg_place_step db c hkeys hpos

theorem callDecrement_nonneg (db : DB) (c : PlaceCall) (k : String) :
    0 ≤ callDecrement db c k := by
  unfold callDecrement
  cases (placeOrder db c.userId c.req c.orderNumber c.orderId).1 with
  | error e => exact le_refl 0
  | ok order => exact requestedQty_nonneg c.req.items k

theorem totalDecrements_nonneg (db : DB) (k : String) (calls : List PlaceCall) :
    0 ≤ totalDecrements db k calls := by
  induction calls generalizing db with
  | nil => exact le_refl 0
  | cons c cs ih =>
      show 0 ≤ callDecrement db c k + totalDecrements _ k cs
      have h1 := callDecrement_nonneg db c k
      have h2 := ih (placeOrder db c.userId c.req c.orderNumber c.orderId).2
      omega

/-- C1: an order is created (and stock decremented) only if every line
item's requested quantity is at most the stockQuantity read from the
transaction's committed snapshot; consequently, for any sequence of
PlaceOrder calls against a store with distinct document ids and
non-negative stock, every stockQuantity stays non-negative and the sum of
the decrements applied by successful calls to a product with initial stock
S is at most S, the final stock being exactly S minus that sum. (The SDK's
read-before-write transaction contract makes every cart with more than one
line item abort without effect, so each successful call holds exactly the
one availability check its decrement needs.) -/
theorem placeOrder_stock_invariant :
    (∀ (db : DB) (u : Option String) (req : PlaceRequest) (onum oid : String)
        (order : Order) (db2 : DB),
        placeOrder db u req onum oid = (.ok order, db2) →
        ∀ item ∈ req.items, ∃ p, dbGet db.products item.productId = some p ∧
          (item.quantity : Int) ≤ p.stockQuantity) ∧
    (∀ (db : DB) (calls : List PlaceCall) (k : String) (p : Product),
        (db.products.map Prod.fst).Nodup →
        (∀ kv ∈ db.products, 0 ≤ (Prod.snd kv).stockQuantity) →
        dbGet db.products k = some p →
        (∀ kv ∈ (placeMany db calls).products, 0 ≤ (Prod.snd kv).stockQuantity) ∧
        ∃ p2, dbGet (placeMany db calls).products k = some p2 ∧
          p2.stockQuantity = p.stockQuantity - totalDecrements db k calls ∧
          0 ≤ totalDecrements db k calls ∧
          totalDecrements db k calls ≤ p.stockQuantity) := by
  constructor
  · intro db u req onum oid order db2 h item hitem
    obtain ⟨ws, hpi, -, -, -, -, -, -, -⟩ :=
      placeOrder_ok db u req onum oid order db2 h
    obtain ⟨hav, -, -, -⟩ := processItems_ok db.products req.items order.items ws hpi
    exact (hav item hitem).imp (fun p hp => ⟨hp.1, hp.2.2⟩)
  · intro db calls k p hkeys hpos hk
    have hnonneg := stock_nonneg_placeMany db calls hkeys hpos
    refine ⟨hnonneg, ?_⟩
    have hstock := getStock_placeMany db calls k
    rw [show getStock db.products k = some p.stockQuantity from by
      unfold getStock; rw [hk]; rfl] at hstock
    unfold getStock at hstock
    cases hget : dbGet (placeMany db calls).products k with
    | none => rw [hget] at hstock; cases hstock
    | some p2 =>
        rw [hget] at hstock
        injection hstock with hstock
        have hstock2 : p2.stockQuantity
            = p.stockQuantity - totalDecrements db k calls := hstock
        refine ⟨p2, rfl, hstock2, totalDecrements_nonneg db k calls, ?_⟩
        have hmem : ∃ kv, (placeMany db calls).products.find?
            (fun kv => kv.1 == k) = some kv ∧ kv.2 = p2 := by
          unfold dbGet at hget
          cases hf : (placeMany db calls).products.find? (fun kv => kv.1 == k) with
          | none => rw [hf] at hget; cases hget
          | some kv =>
              rw [hf] at hget
              injection hget with hget
              exact ⟨kv, rfl, hget⟩
        obtain ⟨kv, hfind, hkv2⟩ := hmem
        have hin : kv ∈ (placeMany db calls).products :=
          List.mem_of_find?_eq_some hfind
        have h0 : 0 ≤ p2.stockQuantity := hkv2 ▸ hnonneg kv hin
        omega

/-- C1 witness: the single-call sequence placing one unit of the one-unit
product — distinct document ids, all stocks non-negative — ends with
stock 0 = 1 − 1 and total decrements 1 ≤ 1. -/
theorem placeOrder_stock_invariant_witness :
    (∀ kv ∈ (placeMany exDB1 [exCall]).products, 0 ≤ (Prod.snd kv).stockQuantity) ∧
    ∃ p2, dbGet (placeMany exDB1 [exCall]).products "p" = some p2 ∧
      p2.stockQuantity = exProductP.stockQuantity - totalDecrements exDB1 "p" [exCall] ∧
      0 ≤ totalDecrements exDB1 "p" [exCall] ∧
      totalDecrements exDB1 "p" [exCall] ≤ exProductP.stockQuantity :=
  placeOrder_stock_invariant.2 exDB1 [exCall] "p" exProductP
    (by decide) (by decide) rfl

/-! ## Claim C4 -/

theorem netDelta_cancelWrites (items : List OrderItem) (k : String) :
    netDelta (cancelWrites items) k = snapshotQty items k := by
  induction items with
  | nil => rfl
  | cons it rest ih =>
      show writeDelta (.incStock it.productId (it.quantity : Int)) k
        + netDelta (cancelWrites rest) k = _
      rw [ih]
      by_cases hk : it.productId = k
      · simp [writeDelta, snapshotQty, hk]
      · simp [writeDelta, snapshotQty, hk]

theorem snapshotQty_eq_requestedQty (ois : List OrderItem) (items : List ReqItem)
    (hpid : ois.map OrderItem.productId = items.map ReqItem.productId)
    (hqty : ois.map OrderItem.quantity = items.map ReqItem.quantity) (k : String) :
    snapshotQty ois k = requestedQty items k := by
  induction ois generalizing items with
  | nil =>
      cases items with
      | nil => rfl
      | cons b bs => simp at hpid
  | cons a as ih =>
      cases items with
      | nil => simp at hpid
      | cons b bs =>
          rw [List.map_cons, List.map_cons] at hpid hqty
          injection hpid with hpid1 hpid2
          injection hqty with hqty1 hqty2
          unfold snapshotQty requestedQty
          rw [hpid1, hqty1, ih bs hpid2 hqty2]

theorem cancelOrder_of_ok_all (db : DB) (user : UserCtx) (oid : String)
    (reason : Option String) (order : Order)
    (hg : dbGet db.orders oid = some order)
    (hauth : (!(user.role == "GronderfulBlogs")
        && !(order.userId == some user.id)) = false)
    (hstat : (!(order.status == OrderStatus.pending
        || order.status == OrderStatus.processing)) = false)
    (hex : (order.items.all fun it => (dbGet db.products it.productId).isSome) = true) :
    cancelOrder db user oid reason
      = (.ok { order with status := .cancelled
                          cancellationReason :=
                            some (reason.getD "Cancelled by customer")
                          cancelledBy := some user.id },
         { db with
             products := applyWrites db.products (cancelWrites order.items)
             orders := dbUpdate db.orders oid
               (fun _ => { order with status := .cancelled
                                      cancellationReason :=
                                        some (reason.getD "Cancelled by customer")
                                      cancelledBy := some user.id }) }) := by
  unfold cancelOrder
  simp only [hg]
  rw [if_neg (fun hc => by rw [hauth] at hc; cases hc),
      if_neg (fun hc => by rw [hstat] at hc; cases hc),
      if_neg (fun hc => by rw [hex] at hc; simp at hc)]

/-- C4 (amended): for every order placed by a successful PlaceOrder (with a
fresh order id), an authorized CancelOrder immediately after succeeds and
restores every product-level stockQuantity to exactly its value before the
placement, using the quantities snapshotted on the order; variant stock is
not restored (the cancel transaction increments only `stockQuantity` and
never touches the variants array). -/
theorem place_then_cancel_restores_product_stock (db : DB) (u : Option String)
    (req : PlaceRequest) (onum oid : String) (reason : Option String)
    (user : UserCtx) (order : Order) (db1 : DB)
    (hplace : placeOrder db u req onum oid = (.ok order, db1))
    (hfresh : dbGet db.orders oid = none)
    (hauth : user.role = "GronderfulBlogs" ∨ u = some user.id) :
    ∃ order2 db2, cancelOrder db1 user oid reason = (.ok order2, db2) ∧
      ∀ k, getStock db2.products k = getStock db.products k := by
  obtain ⟨ws, hpi, hprod, horders, -, -, hstatus, huser, -⟩ :=
    placeOrder_ok db u req onum oid order db1 hplace
  obtain ⟨hav, hnet, hpidmap, hqtymap⟩ :=
    processItems_ok db.products req.items order.items ws hpi
  have hg1 : dbGet db1.orders oid = some order := by
    rw [horders, dbGet_append_of_left_none db.orders _ oid hfresh, dbGet_cons,
      if_pos rfl]
  have hauthb : (!(user.role == "GronderfulBlogs")
      && !(order.userId == some user.id)) = false := by
    rcases hauth with h | h
    · simp [h]
    · rw [huser, h]
      simp
  have hstatb : (!(order.status == OrderStatus.pending
      || order.status == OrderStatus.processing)) = false := by
    rw [hstatus]
    rfl
  have hex : (order.items.all fun it => (dbGet db1.products it.productId).isSome)
      = true := by
    rw [List.all_eq_true]
    intro it hit
    have hmem : it.productId ∈ req.items.map ReqItem.productId := by
      rw [← hpidmap]
      exact List.mem_map_of_mem _ hit
    obtain ⟨item, hitem, hpid⟩ := List.mem_map.mp hmem
    obtain ⟨p, hp, -, -⟩ := hav item hitem
    rw [hprod, dbGet_applyWrites, ← hpid, hp]
    rfl
  have hcancel := cancelOrder_of_ok_all db1 user oid reason order hg1 hauthb hstatb hex
  refine ⟨_, _, hcancel, ?_⟩
  intro k
  show getStock (applyWrites db1.products (cancelWrites order.items)) k
    = getStock db.products k
  rw [getStock_applyWrites, netDelta_cancelWrites,
      snapshotQty_eq_requestedQty order.items req.items hpidmap hqtymap k,
      hprod, getStock_applyWrites, hnet k]
  cases getStock db.products k with
  | none => rfl
  | some n =>
      show some (n + -(requestedQty req.items k) + requestedQty req.items k) = some n
      congr 1
      ring

theorem exPlaceSimple_eq :
    placeOrder exDB1 none exReqTamper2 "ORD1" "oX" = (.ok exOrderSimple, exAfterSimple) := by
  norm_num [placeOrder, validPlaceRequest, placeOrderTxn, processItems, processItem,
    dbGet, exDB1, exProductP, exReqTamper2, mkOrder, orderSubtotal, exOrderSimple,
    exAfterSimple, applyWrites, applyWrite, dbUpdate]

/-- C4 witness: placing one unit of the one-unit product and cancelling it
(as admin) succeeds and restores every product-level stock to its initial
value. -/
theorem place_then_cancel_restores_product_stock_witness :
    ∃ order2 db2, cancelOrder exAfterSimple exAdmin "oX" none = (.ok order2, db2) ∧
      ∀ k, getStock db2.products k = getStock exDB1.products k :=
  place_then_cancel_restores_product_stock exDB1 none exReqTamper2 "ORD1" "oX"
    none exAdmin exOrderSimple exAfterSimple exPlaceSimple_eq rfl (Or.inl rfl)

/-- C6 witness: the concrete placed order satisfies the amended totals
formulas. -/
theorem placeOrder_totals_formula_witness :
    exOrderSimple.tax = exOrderSimple.subtotal * (1 / 10) ∧
    exOrderSimple.shipping
      = (if 50 < exOrderSimple.subtotal then (0 : ℚ) else 999 / 100) ∧
    exOrderSimple.total
      = exOrderSimple.subtotal + exOrderSimple.tax + exOrderSimple.shipping :=
  placeOrder_totals_formula exDB1 none exReqTamper2 "ORD1" "oX" exOrderSimple
    exAfterSimple exPlaceSimple_eq

end GronderfulShops
